import Mathlib

/-!
Shallow embedding of the uninitialized-variable checker
(lib/checkuninitvar.cpp) together with proofs about its behaviour.

Part 1 embeds the per-variable pointer/array tracker (class UninitVar):
the tracker state, the transition helpers use / alloc_pointer /
init_pointer / dealloc_pointer / init_strncpy, and the strncpy and
deallocation dispatch fragments of UninitVar::parse.
-/

/-- Diagnostic kinds reported by the checker (the three error ids of the source). -/
inductive ErrKind : Type where
  | uninitvar
  | uninitdata
  | uninitstring
deriving DecidableEq, Repr

/-- One emitted diagnostic: its kind, the variable id it refers to, and the
    position of the token it was reported at. -/
structure Diag : Type where
  kind : ErrKind
  varId : Nat
  pos : Nat
deriving DecidableEq, Repr

namespace UninitVar

/-- State of one tracked pointer/array variable: the data members of class
    UninitVar (varId from ExecutionPath; var->isPointer and var->isArray come
    from the symbol database record of the variable; the mutable flags are
    alloc, strncpy_ and memset_nonzero). -/
structure Chk : Type where
  varId : Nat
  isPointer : Bool
  isArray : Bool
  alloc : Bool
  strncpy_ : Bool
  memset_nonzero : Bool
deriving DecidableEq, Repr

/-- Modelled from the spec: ExecutionPath::bailOutVar (executionpath.h, which is
    not under src/) removes every active tracker for the given variable id. -/
def bailOutVar (checks : List Chk) (varid : Nat) : List Chk :=
  checks.filter (fun c => c.varId ≠ varid)

/-- Modelled from the spec: ExecutionPath::bailOut (executionpath.h, which is
    not under src/) removes all active trackers of the function. -/
def bailOut (_checks : List Chk) : List Chk := []

/-- The mode-specific exemptions at the top of UninitVar::use (modes 0,2,3,4,5
    have a continue clause; mode 1 has none). -/
def useExempt (c : Chk) (mode : Nat) : Bool :=
  (mode == 0 && (c.isArray || (c.isPointer && c.alloc))) ||
  (mode == 2 && c.strncpy_) ||
  (mode == 3 && (!c.isPointer || c.isArray)) ||
  (mode == 4 && (!c.isPointer || c.isArray || c.alloc)) ||
  (mode == 5 && (!c.isArray && !c.isPointer))

/-- Which error is reported by UninitVar::use for a matching, non-exempt
    tracker: uninitstring when strncpy_ or memset_nonzero, uninitdata for an
    allocated plain pointer, otherwise uninitvar. -/
def reportKind (c : Chk) : ErrKind :=
  if c.strncpy_ || c.memset_nonzero then ErrKind.uninitstring
  else if c.isPointer && !c.isArray && c.alloc then ErrKind.uninitdata
  else ErrKind.uninitvar

/-- Loop body of UninitVar::use: scan the checks for the variable id, skip
    exempt trackers, report once at the first non-exempt match and stop. -/
def useGo (varid pos mode : Nat) : List Chk → Bool × List Diag
  | [] => (false, [])
  | c :: cs =>
    if c.varId = varid then
      if useExempt c mode then useGo varid pos mode cs
      else (true, [⟨reportKind c, varid, pos⟩])
    else useGo varid pos mode cs

/-- UninitVar::use (mode-parameterized): returns whether an error was found
    together with the diagnostics it reported. A variable id of 0 returns
    false immediately. The checks list is never modified by use. -/
def use (checks : List Chk) (varid pos mode : Nat) : Bool × List Diag :=
  if varid = 0 then (false, []) else useGo varid pos mode checks

/-- UninitVar::alloc_pointer: at the first tracker matching the id, set alloc
    if the variable is a plain pointer, otherwise bail the variable out; then
    stop (break). -/
def alloc_pointer : List Chk → Nat → List Chk
  | [], _ => []
  | c :: cs, varid =>
    if c.varId = varid then
      if c.isPointer && !c.isArray then { c with alloc := true } :: cs
      else bailOutVar (c :: cs) varid
    else c :: alloc_pointer cs varid

/-- Loop of UninitVar::init_pointer: walk the list; a matching tracker that is
    allocated or an array is erased; a matching tracker that is neither makes a
    use_pointer (mode 3) pass over the whole current list and is kept. The
    accumulator holds the already-kept prefix in reverse. -/
def initPointerGo (varid pos : Nat) : List Chk → List Chk → List Chk × List Diag
  | accRev, [] => (accRev.reverse, [])
  | accRev, c :: cs =>
    if c.varId = varid then
      if c.alloc || c.isArray then
        initPointerGo varid pos accRev cs
      else
        let ds := (use (accRev.reverse ++ c :: cs) varid pos 3).2
        let r := initPointerGo varid pos (c :: accRev) cs
        (r.1, ds ++ r.2)
    else
      initPointerGo varid pos (c :: accRev) cs

/-- UninitVar::init_pointer: initializing through a pointer, *p = ... -/
def init_pointer (checks : List Chk) (varid pos : Nat) : List Chk × List Diag :=
  if varid = 0 then (checks, []) else initPointerGo varid pos [] checks

/-- Loop of UninitVar::dealloc_pointer: for each matching tracker, an
    unallocated plain pointer reports uninitvar and stops the loop (the alloc
    flag is not cleared in that case); otherwise alloc is cleared and the scan
    continues. -/
def deallocGo (varid pos : Nat) : List Chk → List Chk × List Diag
  | [] => ([], [])
  | c :: cs =>
    if c.varId = varid then
      if c.isPointer && !c.isArray && !c.alloc then
        (c :: cs, [⟨ErrKind.uninitvar, varid, pos⟩])
      else
        let r := deallocGo varid pos cs
        ({ c with alloc := false } :: r.1, r.2)
    else
      let r := deallocGo varid pos cs
      (c :: r.1, r.2)

/-- UninitVar::dealloc_pointer: free(p) and friends. -/
def dealloc_pointer (checks : List Chk) (varid pos : Nat) : List Chk × List Diag :=
  if varid = 0 then (checks, []) else deallocGo varid pos checks

/-- UninitVar::init_strncpy: set strncpy_ on every tracker matching the id. -/
def init_strncpy (checks : List Chk) (varid : Nat) : List Chk :=
  if varid = 0 then checks
  else checks.map (fun c => if c.varId = varid then { c with strncpy_ := true } else c)

/-- The deallocation dispatch pattern of UninitVar::parse (lines 606-610):
    free|kfree|fclose ( %var% ) — the argument must be followed by the closing
    parenthesis — or realloc ( %var% with anything after. -/
def deallocCallMatch (fname : String) (argClosed : Bool) : Bool :=
  ((fname = "free" || fname = "kfree" || fname = "fclose") && argClosed) || fname = "realloc"

/-- UninitVar::parse, deallocation dispatch: on a matching call shape the
    argument token is handed to dealloc_pointer. -/
def parseDeallocCall (fname : String) (argClosed : Bool) (checks : List Chk)
    (varid pos : Nat) : List Chk × List Diag :=
  if deallocCallMatch fname argClosed then dealloc_pointer checks varid pos else (checks, [])

/-- The strncpy fragment of UninitVar::parse (lines 643-658). src is some len
    when the second argument is a string literal of length len (getStrLength,
    which does not count the null terminator), none otherwise; count is some sz
    when the third argument is a numeric literal of value sz. A literal source
    with sz >= 0 and len >= sz calls init_strncpy; a literal source with a
    bigger or missing count does nothing; a non-literal source calls
    init_strncpy. -/
def parse_strncpy (checks : List Chk) (varid : Nat) (src : Option Nat) (count : Option Int) :
    List Chk :=
  match src with
  | some len =>
    match count with
    | some sz => if 0 ≤ sz ∧ sz ≤ (len : Int) then init_strncpy checks varid else checks
    | none => checks
  | none => init_strncpy checks varid

end UninitVar

/-! Helper lemmas about the tracker helpers. -/

theorem UninitVar.deallocGo_nomatch (varid pos : Nat) (cs : List UninitVar.Chk)
    (h : ∀ x ∈ cs, x.varId ≠ varid) : UninitVar.deallocGo varid pos cs = (cs, []) := by
  induction cs with
  | nil => rfl
  | cons c cs ih =>
    have hc : c.varId ≠ varid := h c (List.mem_cons_self c cs)
    have ih2 := ih (fun x hx => h x (List.mem_cons_of_mem c hx))
    simp [UninitVar.deallocGo, hc, ih2]

theorem UninitVar.deallocGo_append_nomatch (varid pos : Nat)
    (cs1 cs2 : List UninitVar.Chk) (h : ∀ x ∈ cs1, x.varId ≠ varid) :
    UninitVar.deallocGo varid pos (cs1 ++ cs2)
      = (cs1 ++ (UninitVar.deallocGo varid pos cs2).1, (UninitVar.deallocGo varid pos cs2).2) := by
  induction cs1 with
  | nil => rfl
  | cons c cs ih =>
    have hc : c.varId ≠ varid := h c (List.mem_cons_self c cs)
    have ih2 := ih (fun x hx => h x (List.mem_cons_of_mem c hx))
    simp [UninitVar.deallocGo, hc, ih2]

/-- C9: for a token whose variable id is 0 the tracker transition helpers are
    no-ops: use returns false and reports nothing, and init_pointer,
    dealloc_pointer and init_strncpy return immediately leaving every tracker
    unchanged. -/
theorem varid_zero_tracker_noop (checks : List UninitVar.Chk) (pos mode : Nat) :
    UninitVar.use checks 0 pos mode = (false, []) ∧
    UninitVar.init_pointer checks 0 pos = (checks, []) ∧
    UninitVar.dealloc_pointer checks 0 pos = (checks, []) ∧
    UninitVar.init_strncpy checks 0 = checks := by
  refine ⟨?_, ?_, ?_, ?_⟩ <;>
    simp [UninitVar.use, UninitVar.init_pointer, UninitVar.dealloc_pointer,
      UninitVar.init_strncpy]

/-- C3: processing free(var), kfree(var), fclose(var) or realloc(var, ...) for
    a tracked variable: if the variable is a non-array pointer whose allocated
    flag is false, an uninitvar diagnostic is reported at that token (and the
    state is left as is); otherwise the tracker's allocated flag is cleared and
    nothing is reported. Consequently, at tracker level, in
    p = malloc(..); free(p); free(p); the second free reports uninitvar. -/
theorem dealloc_unallocated_reports (fname : String) (argClosed : Bool)
    (cs1 cs2 : List UninitVar.Chk) (c : UninitVar.Chk) (vid pos : Nat)
    (hf : UninitVar.deallocCallMatch fname argClosed = true)
    (hc : c.varId = vid) (hv : vid ≠ 0)
    (h1 : ∀ x ∈ cs1, x.varId ≠ vid) (h2 : ∀ x ∈ cs2, x.varId ≠ vid) :
    (c.isPointer = true → c.isArray = false → c.alloc = false →
      UninitVar.parseDeallocCall fname argClosed (cs1 ++ c :: cs2) vid pos
        = (cs1 ++ c :: cs2, [⟨ErrKind.uninitvar, vid, pos⟩])) ∧
    ((c.isPointer = false ∨ c.isArray = true ∨ c.alloc = true) →
      UninitVar.parseDeallocCall fname argClosed (cs1 ++ c :: cs2) vid pos
        = (cs1 ++ { c with alloc := false } :: cs2, [])) ∧
    (let p : UninitVar.Chk := ⟨7, true, false, false, false, false⟩
     let l1 := UninitVar.alloc_pointer [p] 7
     let r1 := UninitVar.parseDeallocCall fname argClosed l1 7 10
     let r2 := UninitVar.parseDeallocCall fname argClosed r1.1 7 11
     r1.2 = [] ∧ r2.2 = [⟨ErrKind.uninitvar, 7, 11⟩]) := by
  have hnil : UninitVar.deallocGo vid pos cs2 = (cs2, []) :=
    UninitVar.deallocGo_nomatch vid pos cs2 h2
  refine ⟨?_, ?_, ?_⟩
  · intro hp ha hal
    simp only [UninitVar.parseDeallocCall, hf, if_pos]
    simp only [UninitVar.dealloc_pointer, hv, if_neg, ite_false]
    rw [UninitVar.deallocGo_append_nomatch vid pos cs1 (c :: cs2) h1]
    simp [UninitVar.deallocGo, hc, hp, ha, hal]
  · intro hcase
    simp only [UninitVar.parseDeallocCall, hf, if_pos]
    simp only [UninitVar.dealloc_pointer, hv, if_neg, ite_false]
    rw [UninitVar.deallocGo_append_nomatch vid pos cs1 (c :: cs2) h1]
    have hguard : (c.isPointer && !c.isArray && !c.alloc) = false := by
      rcases hcase with h | h | h <;> simp [h]
    simp [UninitVar.deallocGo, hc, hguard, hnil]
  · simp only [UninitVar.parseDeallocCall, hf, if_pos]
    simp [UninitVar.alloc_pointer, UninitVar.dealloc_pointer, UninitVar.deallocGo]

/-- Witness for C3 at a concrete input. -/
theorem dealloc_unallocated_reports_witness :
    UninitVar.parseDeallocCall ("free") true [⟨5, true, false, false, false, false⟩] 5 3
      = ([⟨5, true, false, false, false, false⟩], [⟨ErrKind.uninitvar, 5, 3⟩]) :=
  (dealloc_unallocated_reports ("free") true [] []
      ⟨5, true, false, false, false, false⟩ 5 3 (by decide) rfl (by decide)
      (by intro x hx; cases hx) (by intro x hx; cases hx)).1 rfl rfl rfl

/-- C4 counterexample: the claim says that strncpy(var, literal, N) with N at
    most the literal length including the null terminator fully initializes the
    variable and removes its tracker, and that otherwise unsafeString is set.
    The code does the opposite: for strncpy(buf, "hello", 5) (N = 5, literal
    length 5, so N is within the literal plus terminator) the tracker is kept
    and its strncpy_ flag is set; for strncpy(buf, "hi", 8) (N larger than the
    literal) the tracker is left completely unchanged. -/
theorem strncpy_claim_counterexample :
    UninitVar.parse_strncpy [⟨3, false, true, false, false, false⟩] 3 (some 5) (some 5)
      = [⟨3, false, true, false, true, false⟩] ∧
    UninitVar.parse_strncpy [⟨3, false, true, false, false, false⟩] 3 (some 2) (some 8)
      = [⟨3, false, true, false, false, false⟩] := by
  constructor
  · simp [UninitVar.parse_strncpy, UninitVar.init_strncpy]
  · simp [UninitVar.parse_strncpy]

/-- C4 amended: for strncpy(var, literal, N): when 0 <= N and N is at most the
    literal's length not counting the null terminator, every tracker of the
    variable gets its strncpy_ (unsafeString) flag set and no tracker is
    removed; when N exceeds the literal length, or the count is not a numeric
    literal, the trackers are unchanged; when the source length is unknown
    (non-literal source), strncpy_ is likewise set. -/
theorem strncpy_sets_unsafe_string (checks : List UninitVar.Chk) (varid : Nat)
    (len : Nat) (sz : Int) (cnt : Option Int) (hv : varid ≠ 0) :
    (0 ≤ sz → sz ≤ (len : Int) →
      (UninitVar.parse_strncpy checks varid (some len) (some sz)).length = checks.length ∧
      (∀ c ∈ checks, c.varId = varid →
        { c with strncpy_ := true } ∈ UninitVar.parse_strncpy checks varid (some len) (some sz)) ∧
      (∀ c ∈ checks, c.varId ≠ varid →
        c ∈ UninitVar.parse_strncpy checks varid (some len) (some sz))) ∧
    ((len : Int) < sz → UninitVar.parse_strncpy checks varid (some len) (some sz) = checks) ∧
    (UninitVar.parse_strncpy checks varid (some len) none = checks) ∧
    ((UninitVar.parse_strncpy checks varid none cnt).length = checks.length ∧
      (∀ c ∈ checks, c.varId = varid →
        { c with strncpy_ := true } ∈ UninitVar.parse_strncpy checks varid none cnt) ∧
      (∀ c ∈ checks, c.varId ≠ varid →
        c ∈ UninitVar.parse_strncpy checks varid none cnt)) := by
  refine ⟨?_, ?_, ?_, ?_⟩
  · intro h0 hle
    simp only [UninitVar.parse_strncpy, if_pos (And.intro h0 hle)]
    refine ⟨?_, ?_, ?_⟩
    · simp [UninitVar.init_strncpy, hv]
    · intro c hcin hcv
      simp only [UninitVar.init_strncpy, hv, if_neg, ite_false, List.mem_map]
      exact ⟨c, hcin, by simp [hcv]⟩
    · intro c hcin hcv
      simp only [UninitVar.init_strncpy, hv, if_neg, ite_false, List.mem_map]
      exact ⟨c, hcin, by simp [hcv]⟩
  · intro hlt
    have : ¬ (0 ≤ sz ∧ sz ≤ (len : Int)) := by
      intro h
      exact absurd h.2 (not_le.mpr hlt)
    simp [UninitVar.parse_strncpy, this]
  · rfl
  · refine ⟨?_, ?_, ?_⟩
    · simp [UninitVar.parse_strncpy, UninitVar.init_strncpy, hv]
    · intro c hcin hcv
      simp only [UninitVar.parse_strncpy, UninitVar.init_strncpy, hv, if_neg, ite_false,
        List.mem_map]
      exact ⟨c, hcin, by simp [hcv]⟩
    · intro c hcin hcv
      simp only [UninitVar.parse_strncpy, UninitVar.init_strncpy, hv, if_neg, ite_false,
        List.mem_map]
      exact ⟨c, hcin, by simp [hcv]⟩

/-- Witness for the amended C4 theorem at a concrete input. -/
theorem strncpy_sets_unsafe_string_witness :
    (UninitVar.parse_strncpy [⟨3, false, true, false, false, false⟩] 3 (some 5) (some 5)).length
      = 1 :=
  ((strncpy_sets_unsafe_string [⟨3, false, true, false, false, false⟩] 3 5 5 none
      (by decide)).1 (by decide) (by decide)).1

/-! Part 2: the execution-path driver seen as a stream of tracker operations.
    Each operation is the effect of one token pattern of UninitVar::parse on
    the active checks; the driver feeds them in source order. -/

namespace UninitVar

/-- Right-hand-side usage step of UninitVar::parserhs (lines 383-392): the
    occurrence is classified as array/pointer-data use (mode 5) when preceded
    by * or followed by a bracket, plain use (mode 0) otherwise; on a found
    error the variable is bailed out to prevent duplicate error messages. -/
def parserhsUse (checks : List Chk) (varid pos : Nat) (arrayData : Bool) :
    List Chk × List Diag :=
  let r := if arrayData then use checks varid pos 5 else use checks varid pos 0
  (if r.1 then bailOutVar checks varid else checks, r.2)

/-- One token-derived tracker operation fed to the active checks by the
    execution-path driver. decl is tracker creation at a declaration
    (checks.push_back in UninitVar::parse); call is a function call whose
    derived operations are skipped entirely when the callee name is found in
    the uvarFunctions registry (UninitVar::parse line 599). -/
inductive Event : Type where
  | decl (c : Chk)
  | useEv (varid pos mode : Nat)
  | deallocEv (varid pos : Nat)
  | initPtrEv (varid pos : Nat)
  | initStrncpyEv (varid : Nat)
  | allocEv (varid : Nat)
  | bailVarEv (varid : Nat)
  | bailAllEv
  | rhsEv (varid pos : Nat) (arrayData : Bool)
  | call (fname : String) (inner : List Event)

/-- Drive a sequence of tracker operations over the active checks, given the
    uvarFunctions registry, accumulating the reported diagnostics in order. -/
def runEvents (reg : List String) : List Chk → List Event → List Chk × List Diag
  | checks, [] => (checks, [])
  | checks, Event.decl c :: es => runEvents reg (checks ++ [c]) es
  | checks, Event.useEv v p m :: es =>
    let r := use checks v p m
    let k := runEvents reg checks es
    (k.1, r.2 ++ k.2)
  | checks, Event.deallocEv v p :: es =>
    let r := dealloc_pointer checks v p
    let k := runEvents reg r.1 es
    (k.1, r.2 ++ k.2)
  | checks, Event.initPtrEv v p :: es =>
    let r := init_pointer checks v p
    let k := runEvents reg r.1 es
    (k.1, r.2 ++ k.2)
  | checks, Event.initStrncpyEv v :: es => runEvents reg (init_strncpy checks v) es
  | checks, Event.allocEv v :: es => runEvents reg (alloc_pointer checks v) es
  | checks, Event.bailVarEv v :: es => runEvents reg (bailOutVar checks v) es
  | checks, Event.bailAllEv :: es => runEvents reg (bailOut checks) es
  | checks, Event.rhsEv v p a :: es =>
    let r := parserhsUse checks v p a
    let k := runEvents reg r.1 es
    (k.1, r.2 ++ k.2)
  | checks, Event.call f inner :: es =>
    if f ∈ reg then runEvents reg checks es
    else
      let r := runEvents reg checks inner
      let k := runEvents reg r.1 es
      (k.1, r.2 ++ k.2)

/-- Variable ids of the active trackers. -/
def activeIds (checks : List Chk) : List Nat :=
  checks.map (fun c => c.varId)

/-- No declaration event for the given variable id occurs anywhere in the
    event sequence (not even inside call arguments). -/
def noDeclFor (vid : Nat) : List Event → Bool
  | [] => true
  | Event.decl c :: es => (c.varId ≠ vid) && noDeclFor vid es
  | Event.call _ inner :: es => noDeclFor vid inner && noDeclFor vid es
  | _ :: es => noDeclFor vid es

end UninitVar

/-! Lemmas about which diagnostics the helpers can emit and which tracker ids
    survive them. -/

theorem UninitVar.useGo_diag_mem (v p m : Nat) (cs : List UninitVar.Chk) :
    ∀ d ∈ (UninitVar.useGo v p m cs).2, d.varId ∈ UninitVar.activeIds cs := by
  induction cs with
  | nil => intro d hd; cases hd
  | cons c cs ih =>
    intro d hd
    by_cases hc : c.varId = v
    · by_cases he : UninitVar.useExempt c m
      · simp only [UninitVar.useGo, hc, if_pos, he, ite_true] at hd
        exact List.mem_cons_of_mem _ (ih d hd)
      · simp [UninitVar.useGo, hc, he] at hd
        subst hd
        simp [UninitVar.activeIds, hc]
    · simp only [UninitVar.useGo, hc, ite_false] at hd
      exact List.mem_cons_of_mem _ (ih d hd)

theorem UninitVar.use_diag_mem (checks : List UninitVar.Chk) (v p m : Nat) :
    ∀ d ∈ (UninitVar.use checks v p m).2, d.varId ∈ UninitVar.activeIds checks := by
  intro d hd
  by_cases hv : v = 0
  · simp [UninitVar.use, hv] at hd
  · simp only [UninitVar.use, hv, ite_false] at hd
    exact UninitVar.useGo_diag_mem v p m checks d hd

theorem UninitVar.deallocGo_ids (v p : Nat) (cs : List UninitVar.Chk) :
    UninitVar.activeIds (UninitVar.deallocGo v p cs).1 = UninitVar.activeIds cs := by
  induction cs with
  | nil => rfl
  | cons c cs ih =>
    by_cases hc : c.varId = v
    · by_cases hg : (c.isPointer && !c.isArray && !c.alloc) = true
      · simp [UninitVar.deallocGo, hc, hg]
      · simp only [Bool.not_eq_true] at hg
        simp [UninitVar.deallocGo, hc, hg, UninitVar.activeIds] at ih ⊢
        exact ih
    · simp [UninitVar.deallocGo, hc, UninitVar.activeIds] at ih ⊢
      exact ih

theorem UninitVar.deallocGo_diag_mem (v p : Nat) (cs : List UninitVar.Chk) :
    ∀ d ∈ (UninitVar.deallocGo v p cs).2, d.varId ∈ UninitVar.activeIds cs := by
  induction cs with
  | nil => intro d hd; cases hd
  | cons c cs ih =>
    intro d hd
    by_cases hc : c.varId = v
    · by_cases hg : (c.isPointer && !c.isArray && !c.alloc) = true
      · simp only [UninitVar.deallocGo, hc, if_pos, hg, ite_true, List.mem_singleton] at hd
        subst hd
        simp [UninitVar.activeIds, hc]
      · simp only [Bool.not_eq_true] at hg
        simp only [UninitVar.deallocGo, hc, if_pos, hg, ite_false] at hd
        exact List.mem_cons_of_mem _ (ih d hd)
    · simp only [UninitVar.deallocGo, hc, ite_false] at hd
      exact List.mem_cons_of_mem _ (ih d hd)

theorem UninitVar.initPointerGo_mem (v p : Nat) (cs : List UninitVar.Chk) :
    ∀ accRev : List UninitVar.Chk,
      ∀ x ∈ (UninitVar.initPointerGo v p accRev cs).1, x ∈ accRev.reverse ++ cs := by
  induction cs with
  | nil =>
    intro accRev x hx
    simp only [UninitVar.initPointerGo] at hx
    simp [hx]
  | cons c cs ih =>
    intro accRev x hx
    by_cases hc : c.varId = v
    · by_cases hg : (c.alloc || c.isArray) = true
      · simp only [UninitVar.initPointerGo, hc, if_pos, hg, ite_true] at hx
        have := ih accRev x hx
        simp only [List.mem_append] at this ⊢
        rcases this with h | h
        · exact Or.inl h
        · exact Or.inr (List.mem_cons_of_mem _ h)
      · simp only [Bool.not_eq_true] at hg
        simp only [UninitVar.initPointerGo, hc, if_pos, hg, ite_false] at hx
        have := ih (c :: accRev) x hx
        simp only [List.reverse_cons, List.append_assoc, List.mem_append,
          List.mem_singleton, List.mem_cons] at this ⊢
        tauto
    · simp only [UninitVar.initPointerGo, hc, ite_false] at hx
      have := ih (c :: accRev) x hx
      simp only [List.reverse_cons, List.append_assoc, List.mem_append,
        List.mem_singleton, List.mem_cons] at this ⊢
      tauto

theorem UninitVar.initPointerGo_diag_mem (v p : Nat) (cs : List UninitVar.Chk) :
    ∀ accRev : List UninitVar.Chk,
      ∀ d ∈ (UninitVar.initPointerGo v p accRev cs).2,
        d.varId ∈ UninitVar.activeIds (accRev.reverse ++ cs) := by
  induction cs with
  | nil => intro accRev d hd; simp [UninitVar.initPointerGo] at hd
  | cons c cs ih =>
    intro accRev d hd
    by_cases hc : c.varId = v
    · by_cases hg : (c.alloc || c.isArray) = true
      · simp only [UninitVar.initPointerGo, hc, if_pos, hg, ite_true] at hd
        have := ih accRev d hd
        simp only [UninitVar.activeIds, List.map_append, List.mem_append, List.map_cons,
          List.mem_cons] at this ⊢
        tauto
      · simp only [Bool.not_eq_true] at hg
        simp only [UninitVar.initPointerGo, hc, if_pos, hg, ite_false] at hd
        rcases List.mem_append.mp hd with hd | hd
        · exact UninitVar.use_diag_mem _ v p 3 d hd
        · have := ih (c :: accRev) d hd
          simp only [UninitVar.activeIds, List.reverse_cons, List.append_assoc,
            List.map_append, List.mem_append, List.map_cons, List.mem_cons,
            List.map_nil, List.mem_singleton] at this ⊢
          tauto
    · simp only [UninitVar.initPointerGo, hc, ite_false] at hd
      have := ih (c :: accRev) d hd
      simp only [UninitVar.activeIds, List.reverse_cons, List.append_assoc,
        List.map_append, List.mem_append, List.map_cons, List.mem_cons,
        List.map_nil, List.mem_singleton] at this ⊢
      tauto

theorem UninitVar.init_pointer_not_active (checks : List UninitVar.Chk) (v p vid : Nat)
    (hv : vid ∉ UninitVar.activeIds checks) :
    vid ∉ UninitVar.activeIds (UninitVar.init_pointer checks v p).1 := by
  intro hmem
  by_cases h0 : v = 0
  · simp [UninitVar.init_pointer, h0] at hmem
    exact hv hmem
  · simp only [UninitVar.init_pointer, h0, ite_false] at hmem
    simp only [UninitVar.activeIds, List.mem_map] at hmem
    obtain ⟨x, hx, hxe⟩ := hmem
    have := UninitVar.initPointerGo_mem v p checks [] x hx
    simp only [List.reverse_nil, List.nil_append] at this
    exact hv (by simp only [UninitVar.activeIds, List.mem_map]; exact ⟨x, this, hxe⟩)

theorem UninitVar.init_pointer_diag_mem (checks : List UninitVar.Chk) (v p : Nat) :
    ∀ d ∈ (UninitVar.init_pointer checks v p).2,
      d.varId ∈ UninitVar.activeIds checks := by
  intro d hd
  by_cases h0 : v = 0
  · simp [UninitVar.init_pointer, h0] at hd
  · simp only [UninitVar.init_pointer, h0, ite_false] at hd
    have := UninitVar.initPointerGo_diag_mem v p checks [] d hd
    simpa using this

theorem UninitVar.init_strncpy_ids (checks : List UninitVar.Chk) (v : Nat) :
    UninitVar.activeIds (UninitVar.init_strncpy checks v) = UninitVar.activeIds checks := by
  by_cases h0 : v = 0
  · simp [UninitVar.init_strncpy, h0]
  · simp only [UninitVar.init_strncpy, h0, ite_false, UninitVar.activeIds, List.map_map]
    congr 1
    funext c
    by_cases hc : c.varId = v <;> simp [hc]

theorem UninitVar.bailOutVar_not_active (checks : List UninitVar.Chk) (v vid : Nat)
    (hv : vid ∉ UninitVar.activeIds checks) :
    vid ∉ UninitVar.activeIds (UninitVar.bailOutVar checks v) := by
  intro hmem
  simp only [UninitVar.activeIds, List.mem_map, UninitVar.bailOutVar, List.mem_filter] at hmem
  obtain ⟨x, ⟨hx, _⟩, hxe⟩ := hmem
  exact hv (by simp only [UninitVar.activeIds, List.mem_map]; exact ⟨x, hx, hxe⟩)

theorem UninitVar.alloc_pointer_mem (v : Nat) (checks : List UninitVar.Chk) :
    ∀ x ∈ UninitVar.alloc_pointer checks v, x.varId ∈ UninitVar.activeIds checks := by
  induction checks with
  | nil => intro x hx; simp [UninitVar.alloc_pointer] at hx
  | cons c cs ih =>
    intro x hx
    by_cases hc : c.varId = v
    · by_cases hg : (c.isPointer && !c.isArray) = true
      · simp only [UninitVar.alloc_pointer, hc, if_pos, hg, ite_true, List.mem_cons] at hx
        rcases hx with hx | hx
        · subst hx; simp [UninitVar.activeIds, hc]
        · simp only [UninitVar.activeIds, List.map_cons, List.mem_cons]
          exact Or.inr (List.mem_map_of_mem _ hx)
      · simp only [Bool.not_eq_true] at hg
        have hx2 : x ∈ UninitVar.bailOutVar (c :: cs) v := by
          simpa [UninitVar.alloc_pointer, hc, hg] using hx
        have hx3 : x ∈ c :: cs := List.mem_of_mem_filter hx2
        simpa [UninitVar.activeIds] using
          List.mem_map_of_mem (fun y : UninitVar.Chk => y.varId) hx3
    · simp only [UninitVar.alloc_pointer, hc, ite_false, List.mem_cons] at hx
      rcases hx with hx | hx
      · subst hx; simp [UninitVar.activeIds]
      · simp only [UninitVar.activeIds, List.map_cons, List.mem_cons]
        exact Or.inr (ih x hx)

theorem UninitVar.alloc_pointer_not_active (checks : List UninitVar.Chk) (v vid : Nat)
    (hv : vid ∉ UninitVar.activeIds checks) :
    vid ∉ UninitVar.activeIds (UninitVar.alloc_pointer checks v) := by
  intro hmem
  simp only [UninitVar.activeIds, List.mem_map] at hmem
  obtain ⟨x, hx, hxe⟩ := hmem
  have := UninitVar.alloc_pointer_mem v checks x hx
  rw [hxe] at this
  exact hv this

theorem UninitVar.dealloc_pointer_not_active (checks : List UninitVar.Chk) (v p vid : Nat)
    (hv : vid ∉ UninitVar.activeIds checks) :
    vid ∉ UninitVar.activeIds (UninitVar.dealloc_pointer checks v p).1 := by
  by_cases h0 : v = 0
  · simpa [UninitVar.dealloc_pointer, h0] using hv
  · simpa [UninitVar.dealloc_pointer, h0, UninitVar.deallocGo_ids] using hv

theorem UninitVar.dealloc_pointer_diag_mem (checks : List UninitVar.Chk) (v p : Nat) :
    ∀ d ∈ (UninitVar.dealloc_pointer checks v p).2, d.varId ∈ UninitVar.activeIds checks := by
  intro d hd
  by_cases h0 : v = 0
  · simp [UninitVar.dealloc_pointer, h0] at hd
  · simp only [UninitVar.dealloc_pointer, h0, ite_false] at hd
    exact UninitVar.deallocGo_diag_mem v p checks d hd

theorem UninitVar.init_strncpy_not_active (checks : List UninitVar.Chk) (v vid : Nat)
    (hv : vid ∉ UninitVar.activeIds checks) :
    vid ∉ UninitVar.activeIds (UninitVar.init_strncpy checks v) := by
  rw [UninitVar.init_strncpy_ids]
  exact hv

theorem UninitVar.parserhsUse_not_active (checks : List UninitVar.Chk) (v p : Nat) (a : Bool)
    (vid : Nat) (hv : vid ∉ UninitVar.activeIds checks) :
    vid ∉ UninitVar.activeIds (UninitVar.parserhsUse checks v p a).1 := by
  simp only [UninitVar.parserhsUse]
  by_cases hb : (if a then UninitVar.use checks v p 5 else UninitVar.use checks v p 0).1 = true
  · simp only [hb, ite_true]
    exact UninitVar.bailOutVar_not_active checks v vid hv
  · simp only [Bool.not_eq_true] at hb
    simp only [hb, ite_false]
    exact hv

theorem UninitVar.parserhsUse_diag_mem (checks : List UninitVar.Chk) (v p : Nat) (a : Bool) :
    ∀ d ∈ (UninitVar.parserhsUse checks v p a).2, d.varId ∈ UninitVar.activeIds checks := by
  intro d hd
  simp only [UninitVar.parserhsUse] at hd
  cases a
  · simp at hd
    exact UninitVar.use_diag_mem checks v p 0 d hd
  · simp at hd
    exact UninitVar.use_diag_mem checks v p 5 d hd

/-- C5: once the tracker of a variable id has been removed from the active
    checks list, no later tracker operation of the same function (no new
    declaration of the id intervening) produces any diagnostic for that id,
    and the id never reappears among the active trackers. -/
theorem tracker_removal_monotone (reg : List String) (vid : Nat)
    (checks : List UninitVar.Chk) (es : List UninitVar.Event)
    (hv : vid ∉ UninitVar.activeIds checks)
    (hnd : UninitVar.noDeclFor vid es = true) :
    (∀ d ∈ (UninitVar.runEvents reg checks es).2, d.varId ≠ vid) ∧
    vid ∉ UninitVar.activeIds (UninitVar.runEvents reg checks es).1 := by
  revert hv hnd
  induction checks, es using UninitVar.runEvents.induct reg with
  | case1 checks =>
    intro hv _
    refine ⟨?_, ?_⟩
    · intro d hd
      simp [UninitVar.runEvents] at hd
    · simpa [UninitVar.runEvents] using hv
  | case2 checks c es ih =>
    intro hv hnd
    simp only [UninitVar.noDeclFor, Bool.and_eq_true, decide_eq_true_eq] at hnd
    have hv2 : vid ∉ UninitVar.activeIds (checks ++ [c]) := by
      intro h
      simp only [UninitVar.activeIds, List.map_append, List.mem_append, List.map_cons,
        List.map_nil, List.mem_singleton] at h
      rcases h with h | h
      · exact hv h
      · exact hnd.1 h.symm
    have h2 := ih hv2 hnd.2
    simpa [UninitVar.runEvents] using h2
  | case3 checks v p m es ih =>
    intro hv hnd
    have h2 := ih hv (by simpa [UninitVar.noDeclFor] using hnd)
    refine ⟨?_, ?_⟩
    · intro d hd
      simp only [UninitVar.runEvents] at hd
      rcases List.mem_append.mp hd with hd | hd
      · intro he
        have := UninitVar.use_diag_mem checks v p m d hd
        rw [he] at this
        exact hv this
      · exact h2.1 d hd
    · simpa [UninitVar.runEvents] using h2.2
  | case4 checks v p es r ih =>
    intro hv hnd
    have h2 := ih (UninitVar.dealloc_pointer_not_active checks v p vid hv)
      (by simpa [UninitVar.noDeclFor] using hnd)
    refine ⟨?_, ?_⟩
    · intro d hd
      simp only [UninitVar.runEvents] at hd
      rcases List.mem_append.mp hd with hd | hd
      · intro he
        have := UninitVar.dealloc_pointer_diag_mem checks v p d hd
        rw [he] at this
        exact hv this
      · exact h2.1 d hd
    · simpa [UninitVar.runEvents] using h2.2
  | case5 checks v p es r ih =>
    intro hv hnd
    have h2 := ih (UninitVar.init_pointer_not_active checks v p vid hv)
      (by simpa [UninitVar.noDeclFor] using hnd)
    refine ⟨?_, ?_⟩
    · intro d hd
      simp only [UninitVar.runEvents] at hd
      rcases List.mem_append.mp hd with hd | hd
      · intro he
        have := UninitVar.init_pointer_diag_mem checks v p d hd
        rw [he] at this
        exact hv this
      · exact h2.1 d hd
    · simpa [UninitVar.runEvents] using h2.2
  | case6 checks v es ih =>
    intro hv hnd
    have h2 := ih (UninitVar.init_strncpy_not_active checks v vid hv)
      (by simpa [UninitVar.noDeclFor] using hnd)
    simpa [UninitVar.runEvents] using h2
  | case7 checks v es ih =>
    intro hv hnd
    have h2 := ih (UninitVar.alloc_pointer_not_active checks v vid hv)
      (by simpa [UninitVar.noDeclFor] using hnd)
    simpa [UninitVar.runEvents] using h2
  | case8 checks v es ih =>
    intro hv hnd
    have h2 := ih (UninitVar.bailOutVar_not_active checks v vid hv)
      (by simpa [UninitVar.noDeclFor] using hnd)
    simpa [UninitVar.runEvents] using h2
  | case9 checks es ih =>
    intro hv hnd
    have hv2 : vid ∉ UninitVar.activeIds (UninitVar.bailOut checks) := by
      simp [UninitVar.bailOut, UninitVar.activeIds]
    have h2 := ih hv2 (by simpa [UninitVar.noDeclFor] using hnd)
    simpa [UninitVar.runEvents] using h2
  | case10 checks v p a es r ih =>
    intro hv hnd
    have h2 := ih (UninitVar.parserhsUse_not_active checks v p a vid hv)
      (by simpa [UninitVar.noDeclFor] using hnd)
    refine ⟨?_, ?_⟩
    · intro d hd
      simp only [UninitVar.runEvents] at hd
      rcases List.mem_append.mp hd with hd | hd
      · intro he
        have := UninitVar.parserhsUse_diag_mem checks v p a d hd
        rw [he] at this
        exact hv this
      · exact h2.1 d hd
    · simpa [UninitVar.runEvents] using h2.2
  | case11 checks f inner es hf ih =>
    intro hv hnd
    simp only [UninitVar.noDeclFor, Bool.and_eq_true] at hnd
    have h2 := ih hv hnd.2
    simpa [UninitVar.runEvents, hf] using h2
  | case12 checks f inner es hf r ih1 ih2 =>
    intro hv hnd
    simp only [UninitVar.noDeclFor, Bool.and_eq_true] at hnd
    have h1 := ih1 hv hnd.1
    have h2 := ih2 h1.2 hnd.2
    refine ⟨?_, ?_⟩
    · intro d hd
      simp only [UninitVar.runEvents, hf, ite_false] at hd
      rcases List.mem_append.mp hd with hd | hd
      · exact h1.1 d hd
      · exact h2.1 d hd
    · simpa [UninitVar.runEvents, hf] using h2.2

/-- Witness for C5 at a concrete input: the tracker for id 7 is absent, so a
    later use and a later dealloc of id 7 report nothing about it. -/
theorem tracker_removal_monotone_witness :
    (∀ d ∈ (UninitVar.runEvents [] [⟨3, true, false, false, false, false⟩]
        [UninitVar.Event.useEv 7 1 0, UninitVar.Event.deallocEv 7 2]).2, d.varId ≠ 7) ∧
    7 ∉ UninitVar.activeIds (UninitVar.runEvents [] [⟨3, true, false, false, false, false⟩]
        [UninitVar.Event.useEv 7 1 0, UninitVar.Event.deallocEv 7 2]).1 :=
  tracker_removal_monotone [] 7 [⟨3, true, false, false, false, false⟩]
    [UninitVar.Event.useEv 7 1 0, UninitVar.Event.deallocEv 7 2] (by decide)
    (by simp [UninitVar.noDeclFor])

/-! Part 3: the scalar scope walker CheckUninitVar::checkScopeForVariable and
    the condition head scanner CheckUninitVar::checkIfForWhileHead, over a
    statement-level view of the token stream. Each Item constructor corresponds
    to one token pattern handled by the walker loop; usage classification of an
    occurrence (isVariableUsage) is carried on the occurrence, mirroring the
    spec's split between the walker and the pure classifier. -/

/-- The tracked variable of a scalar walk: its id and pointer flag (the two
    facts the walker reads from the symbol database Variable). -/
structure CVar : Type where
  varId : Nat
  isPointer : Bool
deriving DecidableEq, Repr

/-- One token between the parentheses of an if/for condition: a variable
    occurrence (with its position and the isVariableUsage verdict for it), a
    skipped sizeof/decltype/offsetof operand, or any other token given by its
    text. -/
inductive CTok : Type where
  | var (pos : Nat) (varId : Nat) (isUsage : Bool)
  | skipPar (inner : List CTok)
  | other (s : String)

/-- CheckUninitVar::checkIfForWhileHead (lines 1249-1268): scan the condition
    tokens. An occurrence of the tracked variable that is a read reports and
    settles, unless errors are suppressed, in which case it is skipped and the
    scan continues; an occurrence of the tracked variable that is not a read
    settles silently. Operands of sizeof/decltype/offsetof are skipped. When
    not in is-certain-uninit mode, a seen "&&" switches error suppression on
    for the rest of the scan. Returns (settled, report positions). -/
def checkIfForWhileHead (v : CVar) : Bool → Bool → List CTok → Bool × List Nat
  | _, _, [] => (false, [])
  | suppress, isuninit, t :: rest =>
    match t with
    | CTok.var pos vid usage =>
      if vid = v.varId then
        if usage then
          if suppress then checkIfForWhileHead v suppress isuninit rest
          else (true, [pos])
        else (true, [])
      else checkIfForWhileHead v suppress isuninit rest
    | CTok.skipPar _ => checkIfForWhileHead v suppress isuninit rest
    | CTok.other s =>
      if !isuninit && s = "&&" then checkIfForWhileHead v true isuninit rest
      else checkIfForWhileHead v suppress isuninit rest

/-- The shape if ( %var% ) used by the notzero bailout: the condition is
    exactly one variable occurrence. -/
def condSimpleVar : List CTok → Option Nat
  | [CTok.var _ vid _] => some vid
  | _ => none

/-- One statement-level item of a scope body. Each constructor corresponds to
    one token pattern of the checkScopeForVariable loop: an unconditional inner
    block, if with braced then (without or with else), if without braces, an
    aggregate initializer = { .. } (inner lists its tokens as pairs of
    ampersand-prefix flag and variable id), the nonzero-assignment pattern
    lhs = - rhs ; (lv, rv the two variable ids, rpos the rhs position), a
    skipped sizeof/typeof/offsetof/decltype operand, an unrecognized block
    opener, inline assembly, return/break/continue/throw/goto, a statement
    terminator, an occurrence of a variable (with its isVariableUsage verdict
    for the tracked variable), and any other token. The noRet flags carry the
    external IsScopeNoReturn verdict at the matching closing brace. -/
inductive Item : Type where
  | blockI (noRet : Bool) (body : List Item)
  | ifNE (cond : List CTok) (noRetT : Bool) (thenB : List Item)
  | ifE (cond : List CTok) (noRetT : Bool) (thenB : List Item) (noRetE : Bool)
      (elseB : List Item)
  | ifNB (cond : List CTok)
  | braceInit (inner : List (Bool × Nat))
  | assignNeg (lv rv rpos : Nat)
  | sizeofI (inner : List Item)
  | unknownBlock
  | asmI
  | exitKw
  | semi
  | varTok (pos vid : Nat) (isUse : Bool)
  | otherTok

/-- Result of a scope walk: settled is the return value of the C++ function,
    cell the final value behind the possibleInit pointer (none when the caller
    passed NULL), nOf the value of number_of_if when the walk ended, diags the
    positions of the uninitvar reports in order. -/
structure GoRes : Type where
  settled : Bool
  cell : Option Bool
  nOf : Nat
  diags : List Nat
deriving DecidableEq, Repr

/-- The statement loop of CheckUninitVar::checkScopeForVariable
    (lines 1091-1247). Parameters: noRetEnd is IsScopeNoReturn at the closing
    brace of this scope, suppress the suppressErrors constant computed at
    entry, cell the current value behind the possibleInit pointer, nOf the
    number_of_if counter, nz the notzero set, rt the ret flag. Recursive scope
    entries inline the function prologue: suppressErrors = possibleInit &&
    *possibleInit and *possibleInit = false. -/
def walkGo (v : CVar) (noRetEnd suppress : Bool) (cell : Option Bool) (nOf : Nat)
    (nz : List Nat) (rt : Bool) : List Item → GoRes
  | [] =>
    let cell2 := if 0 < nOf then cell.map (fun _ => true) else cell
    if noRetEnd then ⟨true, cell2, nOf, []⟩ else ⟨rt, cell2, nOf, []⟩
  | Item.blockI nr body :: rest =>
    let r := walkGo v nr (decide (cell = some true)) (cell.map (fun _ => false)) 0 [] false body
    if r.settled then ⟨true, r.cell, nOf, r.diags⟩
    else
      let k := walkGo v noRetEnd suppress r.cell nOf nz rt rest
      ⟨k.settled, k.cell, k.nOf, r.diags ++ k.diags⟩
  | Item.ifNE cond nrT thenB :: rest =>
    let h := checkIfForWhileHead v suppress (nOf == 0) cond
    if h.1 then ⟨true, cell, nOf, h.2⟩
    else if (condSimpleVar cond).elim false (fun w => nz.contains w) then ⟨true, cell, nOf, h.2⟩
    else
      let r := walkGo v nrT (decide (0 < nOf) || suppress) (some false) 0 [] false thenB
      if r.settled || r.cell.getD false then
        if 2 ≤ nOf + 1 then ⟨true, cell, nOf + 1, h.2 ++ r.diags⟩
        else
          let k := walkGo v noRetEnd suppress cell (nOf + 1) nz rt rest
          ⟨k.settled, k.cell, k.nOf, h.2 ++ r.diags ++ k.diags⟩
      else
        let k := walkGo v noRetEnd suppress cell nOf nz rt rest
        ⟨k.settled, k.cell, k.nOf, h.2 ++ r.diags ++ k.diags⟩
  | Item.ifE cond nrT thenB nrE elseB :: rest =>
    let h := checkIfForWhileHead v suppress (nOf == 0) cond
    if h.1 then ⟨true, cell, nOf, h.2⟩
    else if (condSimpleVar cond).elim false (fun w => nz.contains w) then ⟨true, cell, nOf, h.2⟩
    else
      let rT := walkGo v nrT (decide (0 < nOf) || suppress) (some false) 0 [] false thenB
      let rE := walkGo v nrE (decide (0 < nOf) || suppress) (some false) 0 [] false elseB
      if rT.settled && rE.settled then ⟨true, cell, nOf, h.2 ++ rT.diags ++ rE.diags⟩
      else
        let nOf2 := if rT.settled || rE.settled || rE.cell.getD false then nOf + 1 else nOf
        let k := walkGo v noRetEnd suppress cell nOf2 nz rt rest
        ⟨k.settled, k.cell, k.nOf, h.2 ++ rT.diags ++ rE.diags ++ k.diags⟩
  | Item.ifNB cond :: rest =>
    let h := checkIfForWhileHead v suppress (nOf == 0) cond
    if h.1 then ⟨true, cell, nOf, h.2⟩
    else if (condSimpleVar cond).elim false (fun w => nz.contains w) then ⟨true, cell, nOf, h.2⟩
    else
      let k := walkGo v noRetEnd suppress cell nOf nz rt rest
      ⟨k.settled, k.cell, k.nOf, h.2 ++ k.diags⟩
  | Item.braceInit inner :: rest =>
    if inner.any (fun t => t.1 && t.2 == v.varId) then ⟨true, cell, nOf, []⟩
    else walkGo v noRetEnd suppress cell nOf nz rt rest
  | Item.assignNeg lv rv rpos :: rest =>
    let nz2 := if 0 < lv then lv :: nz else nz
    if lv = v.varId then ⟨true, cell, nOf, []⟩
    else if rv = v.varId then
      if suppress then ⟨true, cell, nOf, []⟩
      else if rt then ⟨true, cell, nOf, [rpos]⟩
      else
        let k := walkGo v noRetEnd suppress cell nOf nz2 rt rest
        ⟨k.settled, k.cell, k.nOf, rpos :: k.diags⟩
    else if rt then ⟨true, cell, nOf, []⟩
    else walkGo v noRetEnd suppress cell nOf nz2 rt rest
  | Item.sizeofI _ :: rest => walkGo v noRetEnd suppress cell nOf nz rt rest
  | Item.unknownBlock :: _ => ⟨true, cell, nOf, []⟩
  | Item.asmI :: _ => ⟨true, cell, nOf, []⟩
  | Item.exitKw :: rest => walkGo v noRetEnd suppress cell nOf nz true rest
  | Item.semi :: rest =>
    if rt then ⟨true, cell, nOf, []⟩
    else walkGo v noRetEnd suppress cell nOf nz rt rest
  | Item.varTok pos vid usage :: rest =>
    if vid = v.varId then
      if !suppress && usage then
        let k := walkGo v noRetEnd suppress cell nOf nz rt rest
        ⟨k.settled, k.cell, k.nOf, pos :: k.diags⟩
      else ⟨true, cell, nOf, []⟩
    else walkGo v noRetEnd suppress cell nOf nz rt rest
  | Item.otherTok :: rest => walkGo v noRetEnd suppress cell nOf nz rt rest
termination_by items => sizeOf items

/-- CheckUninitVar::checkScopeForVariable: entry of a scope walk. cellIn is
    the possibleInit argument (none for NULL); suppressErrors is possibleInit
    and *possibleInit, then the cell is reset to false and the loop runs with
    number_of_if = 0, an empty notzero set, and ret = false. -/
def checkScopeForVariable (v : CVar) (noRetEnd : Bool) (cellIn : Option Bool)
    (items : List Item) : GoRes :=
  walkGo v noRetEnd (decide (cellIn = some true)) (cellIn.map (fun _ => false)) 0 [] false items

theorem elim_false_const (o : Option Nat) : (o.elim false fun _ => false) = false := by
  cases o <;> rfl

/-- C1: in the scalar walker, an if statement without else whose braced branch
    settled or signalled possible initialization increments number_of_if. With
    number_of_if previously 0 the walk does not settle: a later read of the
    tracked variable is reported (position prepended to the diagnostics) and
    scanning continues behind it. A second such if makes number_of_if reach 2
    and the walk settles immediately: whatever follows in the scope is not
    visited and cannot be reported. -/
theorem single_branch_if_heuristic (v : CVar) (cond1 cond2 : List CTok)
    (nrT1 nrT2 : Bool) (thenB1 thenB2 : List Item) (p : Nat) (nre : Bool)
    (h1 : checkIfForWhileHead v false true cond1 = (false, []))
    (h2 : checkIfForWhileHead v false false cond2 = (false, []))
    (hr1 : (walkGo v nrT1 false (some false) 0 [] false thenB1).settled = true ∨
           (walkGo v nrT1 false (some false) 0 [] false thenB1).cell = some true)
    (hr2 : (walkGo v nrT2 true (some false) 0 [] false thenB2).settled = true ∨
           (walkGo v nrT2 true (some false) 0 [] false thenB2).cell = some true) :
    (∀ rest : List Item,
      checkScopeForVariable v nre none
          (Item.ifNE cond1 nrT1 thenB1 :: Item.varTok p v.varId true :: rest)
        = (let r := walkGo v nrT1 false (some false) 0 [] false thenB1
           let k := walkGo v nre false none 1 [] false rest
           ⟨k.settled, k.cell, k.nOf, r.diags ++ p :: k.diags⟩)) ∧
    (∀ rest : List Item,
      checkScopeForVariable v nre none
          (Item.ifNE cond1 nrT1 thenB1 :: Item.ifNE cond2 nrT2 thenB2 :: rest)
        = ⟨true, none, 2,
            (walkGo v nrT1 false (some false) 0 [] false thenB1).diags ++
            (walkGo v nrT2 true (some false) 0 [] false thenB2).diags⟩) := by
  have hb1 : ((walkGo v nrT1 false (some false) 0 [] false thenB1).settled ||
      (walkGo v nrT1 false (some false) 0 [] false thenB1).cell.getD false) = true := by
    rcases hr1 with h | h <;> simp [h]
  have hb2 : ((walkGo v nrT2 true (some false) 0 [] false thenB2).settled ||
      (walkGo v nrT2 true (some false) 0 [] false thenB2).cell.getD false) = true := by
    rcases hr2 with h | h <;> simp [h]
  constructor
  · intro rest
    simp +decide [checkScopeForVariable, walkGo, h1, hb1, elim_false_const]
  · intro rest
    simp +decide [checkScopeForVariable, walkGo, h1, h2, hb1, hb2, elim_false_const]

/-- Witness for C1 at a concrete input: two single-branch ifs that assign the
    variable settle the walk with number_of_if = 2 and no diagnostics. -/
theorem single_branch_if_heuristic_witness :
    checkScopeForVariable ⟨7, false⟩ false none
        [Item.ifNE [CTok.var 0 5 true] false [Item.varTok 1 7 false],
         Item.ifNE [CTok.var 0 5 true] false [Item.varTok 1 7 false]]
      = ⟨true, none, 2, []⟩ := by
  have h := (single_branch_if_heuristic ⟨7, false⟩ [CTok.var 0 5 true] [CTok.var 0 5 true]
      false false [Item.varTok 1 7 false] [Item.varTok 1 7 false] 9 false
      (by decide) (by decide)
      (Or.inl (by simp +decide [walkGo])) (Or.inl (by simp +decide [walkGo]))).2 []
  rw [h]
  simp +decide [walkGo]

/-- C2 counterexample: an if/else whose then branch signals possible
    initialization without settling (a nested single-branch if assigning the
    variable) while the else branch does neither leaves number_of_if at 0:
    contrary to the claim, a possible-init signal from the then branch alone
    does not increment number_of_if. -/
theorem if_else_merge_counterexample :
    ((walkGo ⟨7, false⟩ false false (some false) 0 [] false
        [Item.ifNE [CTok.var 2 5 true] false [Item.varTok 1 7 false]]).settled = false ∧
     (walkGo ⟨7, false⟩ false false (some false) 0 [] false
        [Item.ifNE [CTok.var 2 5 true] false [Item.varTok 1 7 false]]).cell = some true) ∧
    (checkScopeForVariable ⟨7, false⟩ false none
        [Item.ifE [CTok.var 0 5 true] false
          [Item.ifNE [CTok.var 2 5 true] false [Item.varTok 1 7 false]] false []]).nOf
      = 0 := by
  refine ⟨⟨?_, ?_⟩, ?_⟩ <;>
    simp +decide [checkScopeForVariable, walkGo, checkIfForWhileHead, condSimpleVar]

/-- C2 amended: for an if with else, if the walks of both braced branches
    settle, the enclosing walk settles immediately — nothing after the if in
    the scope is visited, whatever follows. In every other case (neither
    settled, or exactly one settled) the walk continues behind the if and
    number_of_if is incremented exactly when one of the branches settled or
    the else branch signalled possible initialization: a possible-init signal
    from the then branch alone is ignored. -/
theorem if_else_merge (v : CVar) (cond : List CTok) (nrT nrE nre : Bool)
    (thenB elseB : List Item)
    (h : checkIfForWhileHead v false true cond = (false, [])) :
    ((walkGo v nrT false (some false) 0 [] false thenB).settled = true →
      (walkGo v nrE false (some false) 0 [] false elseB).settled = true →
      ∀ rest : List Item,
        checkScopeForVariable v nre none (Item.ifE cond nrT thenB nrE elseB :: rest)
          = ⟨true, none, 0,
              (walkGo v nrT false (some false) 0 [] false thenB).diags ++
              (walkGo v nrE false (some false) 0 [] false elseB).diags⟩) ∧
    (¬((walkGo v nrT false (some false) 0 [] false thenB).settled = true ∧
        (walkGo v nrE false (some false) 0 [] false elseB).settled = true) →
      ∀ rest : List Item,
        checkScopeForVariable v nre none (Item.ifE cond nrT thenB nrE elseB :: rest)
          = (let rT := walkGo v nrT false (some false) 0 [] false thenB
             let rE := walkGo v nrE false (some false) 0 [] false elseB
             let k := walkGo v nre false none
               (if rT.settled || rE.settled || rE.cell.getD false then 1 else 0) [] false rest
             ⟨k.settled, k.cell, k.nOf, rT.diags ++ rE.diags ++ k.diags⟩)) := by
  constructor
  · intro hT hE rest
    simp +decide [checkScopeForVariable, walkGo, h, hT, hE, elim_false_const]
  · intro hne rest
    by_cases hT : (walkGo v nrT false (some false) 0 [] false thenB).settled = true
    · have hE : (walkGo v nrE false (some false) 0 [] false elseB).settled = false := by
        rcases Bool.eq_false_or_eq_true
            (walkGo v nrE false (some false) 0 [] false elseB).settled with hx | hx
        · exact absurd ⟨hT, hx⟩ hne
        · exact hx
      simp +decide [checkScopeForVariable, walkGo, h, hT, hE, elim_false_const]
    · simp only [Bool.not_eq_true] at hT
      by_cases hE : (walkGo v nrE false (some false) 0 [] false elseB).settled = true
      · simp +decide [checkScopeForVariable, walkGo, h, hT, hE, elim_false_const]
      · simp only [Bool.not_eq_true] at hE
        by_cases hc :
            (walkGo v nrE false (some false) 0 [] false elseB).cell.getD false = true
        · simp +decide [checkScopeForVariable, walkGo, h, hT, hE, hc, elim_false_const]
        · simp only [Bool.not_eq_true] at hc
          simp +decide [checkScopeForVariable, walkGo, h, hT, hE, hc, elim_false_const]

/-- Witness for the amended C2 theorem at a concrete input: both branches
    assign the variable, so the walk settles at the if with no diagnostics. -/
theorem if_else_merge_witness :
    checkScopeForVariable ⟨7, false⟩ false none
        [Item.ifE [CTok.var 0 5 true] false [Item.varTok 1 7 false] false
          [Item.varTok 2 7 false]]
      = ⟨true, none, 0, []⟩ := by
  have h := (if_else_merge ⟨7, false⟩ [CTok.var 0 5 true] false false false
      [Item.varTok 1 7 false] [Item.varTok 2 7 false] (by decide)).1
      (by simp +decide [walkGo]) (by simp +decide [walkGo]) []
  rw [h]
  simp +decide [walkGo]

/-- C7 counterexample: in the head scanner outside is-certain-uninit mode,
    after a "&&" a read of the tracked variable is indeed not reported, but
    contrary to the claim the scanner does not return used for it: it keeps
    scanning and returns false at the end of the condition. -/
theorem head_scanner_claim_counterexample :
    checkIfForWhileHead ⟨7, false⟩ false false [CTok.other ("&&"), CTok.var 3 7 true]
      = (false, []) := by decide

/-- C7 amended: outside is-certain-uninit mode a seen "&&" switches
    suppression on; a subsequent occurrence of the tracked variable classified
    as a read is neither reported nor settles the scan — scanning simply
    continues — while a subsequent occurrence that is not a read still settles
    the scan (returns used) with no report. -/
theorem head_scanner_suppression (v : CVar) (sup : Bool) (p : Nat) (rest : List CTok) :
    (checkIfForWhileHead v sup false (CTok.other ("&&") :: CTok.var p v.varId true :: rest)
      = checkIfForWhileHead v true false rest) ∧
    (checkIfForWhileHead v true false (CTok.var p v.varId true :: rest)
      = checkIfForWhileHead v true false rest) ∧
    (checkIfForWhileHead v true false (CTok.var p v.varId false :: rest) = (true, [])) := by
  refine ⟨?_, ?_, ?_⟩ <;> simp [checkIfForWhileHead]

/-! Part 4: the usage classifier CheckUninitVar::isVariableUsage
    (lines 1270-1335), over the token neighborhood of the occurrence. -/

/-- A token near a classified occurrence: its text, whether it matches the
    operator pattern of Token::Match, and whether it is a name. -/
structure STok : Type where
  s : String
  isOp : Bool
  isName : Bool
deriving DecidableEq, Repr

/-- The stand-in for a null neighbor (Token::Match on NULL never matches). -/
def nullTok : STok := ⟨"", false, false⟩

/-- Token::Match(tok, "++|--|%op%"). -/
def opish (t : STok) : Bool := t.s = "++" || t.s = "--" || t.isOp

/-- Backward search for the "(" matching an already-seen ")" in the reversed
    prefix; returns the tokens before the "(", i.e. the continuation from
    tok2 = tok2->link()->previous(). -/
def skipBackParen : Nat → List STok → Option (List STok)
  | _, [] => none
  | d, t :: ts =>
    if t.s = "(" then (if d = 0 then some ts else skipBackParen (d - 1) ts)
    else if t.s = ")" then skipBackParen (d + 1) ts
    else skipBackParen d ts

/-- The backward shape test of the &var special case (lines 1282-1291): from
    tokAt(-2), jump over one linked parenthesis group, then skip "(" tokens,
    then skip "*" tokens; the shape Token::Match(tok2, "[;\x7b\x7d] *") holds
    when at least one "*" was skipped and the token reached is one of ";",
    the open brace or the close brace. -/
def ampShape (before2 : List STok) : Bool :=
  match (match before2 with
         | t :: ts => if t.s = ")" then skipBackParen 0 ts else some (t :: ts)
         | [] => none) with
  | none => false
  | some l1 =>
    let l2 := l1.dropWhile (fun t => t.s = "(")
    let l3 := l2.dropWhile (fun t => t.s = "*")
    (l2.headD nullTok).s = "*" &&
      ((l3.headD nullTok).s = ";" || (l3.headD nullTok).s = "\x7b" ||
        (l3.headD nullTok).s = "\x7d")

/-- The forward scan of the &var special case (lines 1292-1298): starting
    after the occurrence, is there a "=" before the next ";" or brace? -/
def eqBeforeSemi : List STok → Bool
  | [] => false
  | t :: ts =>
    if t.s = ";" || t.s = "\x7b" || t.s = "\x7d" then false
    else if t.s = "=" then true
    else eqBeforeSemi ts

/-- CheckUninitVar::isVariableUsage. Inputs: the C++ mode flag, the pointer
    flag of the variable, the verdict of the external pointer-dereference
    predicate (CheckNullPointer::isPointerDeRef lives in another file of the
    repository and is consumed as a collaborator), whether the variable's
    declared type token is a standard type (with the variable found in the
    symbol database), and the token neighborhood: before lists the tokens
    preceding the occurrence nearest first, after those following it. -/
def isVariableUsage (isCPP pointer deref stdtype : Bool)
    (before after : List STok) : Bool :=
  let prev := before.headD nullTok
  let prev2 := (before.drop 1).headD nullTok
  let next := after.headD nullTok
  if prev.s = "return" then true
  else if opish prev && (decide (prev.s = ">>") && isCPP) then false
  else if opish prev && prev.s = "&" && ampShape (before.drop 1) && eqBeforeSemi after then
    false
  else if opish prev &&
      !(prev.s = "&" &&
        (prev2.s = "(" || prev2.s = "," || prev2.s = "=" || prev2.s = "?" ||
          prev2.s = ":")) then true
  else if pointer && deref &&
      !((prev2.isName && prev.s = "(") || prev.s = ",") then true
  else if isCPP && (next.s = "<<" || next.s = ">>") then stdtype
  else if opish next then true
  else if next.s = "]" then true
  else false

/-- C8 counterexample: in C++ mode an occurrence preceded by return and
    followed by "<<" whose declared type is not standard is still classified
    as a read — the return rule fires before the stream-operator rule, so the
    claimed "read iff standard type" equivalence fails. -/
theorem stream_op_claim_counterexample :
    isVariableUsage true false false false [⟨"return", false, false⟩]
      [⟨"<<", true, false⟩] = true := by decide

/-- C8 amended: in C++ mode, for an occurrence immediately followed by "<<"
    or ">>", provided no earlier classifier rule fires — the preceding token
    is not return and not an increment, decrement or operator token, and it is not a
    non-parameter pointer dereference — the classifier returns read exactly
    when the declared type is a standard type, and inconclusive otherwise. -/
theorem stream_op_standard_type (pointer deref stdtype : Bool)
    (before after : List STok)
    (hret : (before.headD nullTok).s ≠ "return")
    (hop : opish (before.headD nullTok) = false)
    (hderef : (pointer && deref &&
      !((((before.drop 1).headD nullTok).isName && (before.headD nullTok).s = "(") ||
        (before.headD nullTok).s = ",")) = false)
    (hnext : (after.headD nullTok).s = "<<" ∨ (after.headD nullTok).s = ">>") :
    isVariableUsage true pointer deref stdtype before after = stdtype := by
  have hop2 : ∀ b : Bool, (opish (before.headD nullTok) && b) = true → False := by
    intro b hb
    rw [hop] at hb
    simp at hb
  have hop3 : ∀ b c d : Bool,
      (((opish (before.headD nullTok) && b) && c) && d) = true → False := by
    intro b c d hb
    rw [hop] at hb
    simp at hb
  simp only [isVariableUsage]
  rw [if_neg hret]
  rw [if_neg (hop2 _)]
  rw [if_neg (hop3 _ _ _)]
  rw [if_neg (hop2 _)]
  rw [if_neg (fun hb => by rw [hderef] at hb; simp at hb)]
  rcases hnext with h | h
  · rw [if_pos (by rw [h]; decide)]
  · rw [if_pos (by rw [h]; decide)]

/-- Witness for the amended C8 theorem at a concrete input: non-standard type,
    preceded by ";", followed by "<<": inconclusive. -/
theorem stream_op_standard_type_witness :
    isVariableUsage true false false false [⟨";", false, false⟩]
      [⟨"<<", true, false⟩] = false :=
  stream_op_standard_type false false false [⟨";", false, false⟩]
    [⟨"<<", true, false⟩] (by decide) (by decide) (by decide) (Or.inl rfl)

/-! Part 5: UninitVar::analyseFunctions (lines 919-1006) over a flat token
    list, and the two-phase check entry points used for the idempotence
    property. -/

/-- A token of the translation-unit scan of analyseFunctions: text, variable
    id, standard-type flag, increment/decrement-operator flag, name flag. -/
structure GTok : Type where
  s : String
  varId : Nat
  std : Bool
  incdec : Bool
  isName : Bool
deriving DecidableEq, Repr

/-- The stand-in for a null token (Token::Match on NULL never matches). -/
def gnull : GTok := ⟨"", 0, false, false, false⟩

/-- Skip to just after the closing brace matching an already-seen opening
    brace (tok = tok->link() followed by the loop increment); an unmatched
    stream ends the scan like a NULL link would. -/
def skipBraces : Nat → List GTok → List GTok
  | _, [] => []
  | d, t :: ts =>
    if t.s = "\x7d" then (if d = 0 then ts else skipBraces (d - 1) ts)
    else if t.s = "\x7b" then skipBraces (d + 1) ts
    else skipBraces d ts

/-- The tokens after the ")" matching an already-seen "(" (tok->linkAt(2) and
    the token after it); none models a NULL link. -/
def afterClose : Nat → List GTok → Option (List GTok)
  | _, [] => none
  | d, t :: ts =>
    if t.s = ")" then (if d = 0 then some ts else afterClose (d - 1) ts)
    else if t.s = "(" then afterClose (d + 1) ts
    else afterClose d ts

/-- The read/write scan for one by-reference parameter (lines 944-966): from
    the parameter position, braces track the indent level; a ";" at level 0
    ends the scan (declaration without body); an occurrence of the parameter
    id at level one or more counts as a read when adjacent to a ++ or -- token
    and otherwise as a write, which ends the scan at once. prevID carries
    whether the previous token was ++ or --. Returns the (r, w) flags. -/
def refScan (varid : Nat) : Bool → Nat → Bool → Bool → List GTok → Bool × Bool
  | _, _, r, w, [] => (r, w)
  | prevID, indent, r, w, t :: ts =>
    if t.s = "\x7b" then refScan varid t.incdec (indent + 1) r w ts
    else if t.s = "\x7d" then
      (if indent ≤ 1 then (r, w) else refScan varid t.incdec (indent - 1) r w ts)
    else if indent = 0 ∧ t.s = ";" then (r, w)
    else if 1 ≤ indent ∧ t.varId = varid then
      (if prevID || (ts.headD gnull).incdec then refScan varid t.incdec indent true w ts
       else (r, true))
    else refScan varid t.incdec indent r w ts

/-- The optional tail of the pattern const %type% &|*| const| %var% ,|). -/
def constTail (l : List GTok) : Bool :=
  let l1 := if (l.headD gnull).s = "&" ∨ (l.headD gnull).s = "*" then l.drop 1 else l
  let l2 := if (l1.headD gnull).s = "const" then l1.drop 1 else l1
  if (l2.headD gnull).isName ∧
      (((l2.drop 1).headD gnull).s = "," ∨ ((l2.drop 1).headD gnull).s = ")") then true
  else false

theorem dropWhile_length_le {A : Type} (p : A → Bool) (l : List A) :
    (l.dropWhile p).length ≤ l.length := by
  induction l with
  | nil => simp [List.dropWhile]
  | cons a l ih =>
    rw [List.dropWhile_cons]
    by_cases h : p a
    · simp only [h, if_true]
      exact Nat.le_succ_of_le ih
    · simp only [h, Bool.false_eq_true, if_false]
      exact Nat.le_refl _

mutual

/-- The parameter loop of analyseFunctions (lines 929-999): stop successfully
    at the closing ")" (the final tok2->link() == tok->tokAt(2) check, which
    the consumed parameter patterns guarantee); skip one "," and try the
    declaration patterns; any unmatched shape breaks the loop, which
    disqualifies the function. -/
def paramLoop : List GTok → Bool
  | [] => false
  | t :: ts =>
    if t.s = ")" then true
    else if t.s = "," then
      match ts with
      | [] => false
      | u :: us => paramPats u us
    else paramPats t ts
termination_by l => (l.length, 1)

/-- The parameter declaration patterns tried in one iteration of the loop:
    a standard-type value parameter; a standard-type reference parameter,
    which must scan as read-and-never-written (r and not w) to continue; a
    const parameter with optional &, * and const; a const array parameter. -/
def paramPats (t0 : GTok) (rest : List GTok) : Bool :=
  let l := t0 :: rest
  let t1 := (l.drop 1).headD gnull
  let t2 := (l.drop 2).headD gnull
  let t3 := (l.drop 3).headD gnull
  let t4 := (l.drop 4).headD gnull
  let t5 := (l.drop 5).headD gnull
  if t0.isName ∧ t1.isName ∧ (t2.s = "," ∨ t2.s = ")") ∧ t0.std then
    paramLoop (l.drop 2)
  else if t0.std ∧ t0.isName ∧ t1.s = "&" ∧ t2.isName ∧ (t3.s = "," ∨ t3.s = ")") then
    if (refScan t2.varId false 0 false false l).1 = false ∨
        (refScan t2.varId false 0 false false l).2 = true then false
    else paramLoop (l.drop 3)
  else if t0.s = "const" ∧ t1.std ∧ t1.isName ∧ constTail (l.drop 2) then
    paramLoop ((l.drop 3).dropWhile (fun x => x.isName))
  else if t0.s = "const" ∧ t1.std ∧ t1.isName ∧ t2.isName ∧ t3.s = "[" ∧ t4.s = "]" ∧
      (t5.s = "," ∨ t5.s = ")") then
    paramLoop (l.drop 5)
  else false
termination_by (rest.length + 1, 0)
decreasing_by
  all_goals simp_wf
  all_goals
    first
      | (apply Prod.Lex.left
         simp only [List.length_drop, List.length_cons]
         omega)
      | (apply Prod.Lex.left
         have h := dropWhile_length_le (fun x : GTok => x.isName) (List.drop 2 rest)
         simp only [List.length_drop] at h ⊢
         omega)

end

theorem skipBraces_length_le (d : Nat) (l : List GTok) :
    (skipBraces d l).length ≤ l.length := by
  induction l generalizing d with
  | nil => simp [skipBraces]
  | cons t ts ih =>
    rw [skipBraces]
    by_cases h1 : t.s = "\x7d"
    · simp only [h1, if_pos]
      by_cases h2 : d = 0
      · simp only [h2, if_pos]
        exact Nat.le_succ_of_le (Nat.le_refl _)
      · simp only [h2, if_neg, ite_false]
        exact Nat.le_succ_of_le (ih _)
    · by_cases h2 : t.s = "\x7b"
      · simp only [h1, h2, if_neg, if_pos, ite_false]
        exact Nat.le_succ_of_le (ih _)
      · simp only [h1, h2, if_neg, ite_false]
        exact Nat.le_succ_of_le (ih _)

/-- Does the token after the parameter close parenthesis open a body or end a
    declaration (the ") [;\x7b]" part of the scan pattern)? -/
def closeOk (l : List GTok) : Bool :=
  if (l.headD gnull).s = "\x7b" ∨ (l.headD gnull).s = ";" then true else false

/-- The top scan of UninitVar::analyseFunctions: skip braced bodies via their
    links; at a token other than "::" followed by name ( %type%, whose
    parameter close parenthesis is followed by a body or ";", run the
    parameter loop and collect the function name on success; the scan always
    resumes at the following token. -/
def collectFns : List GTok → List String
  | [] => []
  | t :: ts =>
    if t.s = "\x7b" then collectFns (skipBraces 0 ts)
    else
      if t.s ≠ "::" ∧ (ts.headD gnull).isName ∧ ((ts.drop 1).headD gnull).s = "(" ∧
          ((ts.drop 2).headD gnull).isName ∧
          ((afterClose 0 (ts.drop 2)).elim false closeOk) = true ∧
          paramLoop (ts.drop 2) = true then
        (ts.headD gnull).s :: collectFns ts
      else collectFns ts
termination_by l => l.length
decreasing_by
  all_goals simp_wf
  all_goals
    first
      | omega
      | exact Nat.lt_succ_of_le (skipBraces_length_le 0 _)
      | (simp only [List.length_cons]
         exact Nat.lt_succ_of_le (skipBraces_length_le 0 _))

/-- Insertion into the uvarFunctions registry (std::set semantics, modelled on
    a duplicate-free insertion-ordered list). -/
def insertName (reg : List String) (f : String) : List String :=
  if f ∈ reg then reg else reg ++ [f]

/-- Insert every collected name. -/
def insertAll (reg : List String) (fs : List String) : List String :=
  fs.foldl insertName reg

/-- UninitVar::analyseFunctions: scan the token stream and insert every
    qualifying function name into the given registry. -/
def analyseFunctions (tokens : List GTok) (func : List String) : List String :=
  insertAll func (collectFns tokens)

theorem refScan_no_occurrence (varid : Nat) (body : List GTok)
    (hb : ∀ t ∈ body, t.varId ≠ varid ∧ t.s ≠ "\x7b" ∧ t.s ≠ "\x7d")
    (pid r w : Bool) :
    refScan varid pid 1 r w (body ++ [⟨"\x7d", 0, false, false, false⟩]) = (r, w) := by
  induction body generalizing pid with
  | nil => simp [refScan]
  | cons t ts ih =>
    obtain ⟨h1, h2, h3⟩ := hb t (List.mem_cons_self t ts)
    have ih2 := ih (fun u hu => hb u (List.mem_cons_of_mem t hu)) t.incdec
    simp only [List.cons_append]
    rw [refScan]
    rw [if_neg h2, if_neg h3, if_neg (by simp), if_neg (fun hc => h1 hc.2)]
    exact ih2

theorem skipBraces_no_braces (body tail : List GTok)
    (hb : ∀ t ∈ body, t.s ≠ "\x7b" ∧ t.s ≠ "\x7d") :
    skipBraces 0 (body ++ ⟨"\x7d", 0, false, false, false⟩ :: tail) = tail := by
  induction body with
  | nil => simp [skipBraces]
  | cons t ts ih =>
    obtain ⟨h1, h2⟩ := hb t (List.mem_cons_self t ts)
    simp only [List.cons_append]
    rw [skipBraces, if_neg h2, if_neg h1]
    exact ih (fun u hu => hb u (List.mem_cons_of_mem t hu))

/-- C10: the transparent-helper analysis adds a function only if every
    standard-type by-reference parameter is seen in the body at least once
    adjacent to an increment/decrement token (the read heuristic) and never
    otherwise. For int f(int and x) followed by a braced body: a body with no
    occurrence of x leaves the read flag false and f is not added, even though
    every occurrence of x in it is vacuously a read; a body whose only
    occurrence of x is preceded by ++ qualifies f; a body whose only
    occurrence of x is not adjacent to ++ or -- disqualifies f. -/
theorem analyse_functions_ref_params (body : List GTok)
    (hb : ∀ t ∈ body, t.varId ≠ 5 ∧ t.s ≠ "\x7b" ∧ t.s ≠ "\x7d") :
    (collectFns
        ([⟨";", 0, false, false, false⟩, ⟨"f", 0, false, false, true⟩,
          ⟨"(", 0, false, false, false⟩, ⟨"int", 0, true, false, true⟩,
          ⟨"&", 0, false, false, false⟩, ⟨"x", 5, false, false, true⟩,
          ⟨")", 0, false, false, false⟩, ⟨"\x7b", 0, false, false, false⟩] ++ body ++
         [⟨"\x7d", 0, false, false, false⟩]) = []) ∧
    (collectFns
        [⟨";", 0, false, false, false⟩, ⟨"f", 0, false, false, true⟩,
         ⟨"(", 0, false, false, false⟩, ⟨"int", 0, true, false, true⟩,
         ⟨"&", 0, false, false, false⟩, ⟨"x", 5, false, false, true⟩,
         ⟨")", 0, false, false, false⟩, ⟨"\x7b", 0, false, false, false⟩,
         ⟨"++", 0, false, true, false⟩, ⟨"x", 5, false, false, true⟩,
         ⟨"\x7d", 0, false, false, false⟩] = ["f"]) ∧
    (collectFns
        [⟨";", 0, false, false, false⟩, ⟨"f", 0, false, false, true⟩,
         ⟨"(", 0, false, false, false⟩, ⟨"int", 0, true, false, true⟩,
         ⟨"&", 0, false, false, false⟩, ⟨"x", 5, false, false, true⟩,
         ⟨")", 0, false, false, false⟩, ⟨"\x7b", 0, false, false, false⟩,
         ⟨"x", 5, false, false, true⟩,
         ⟨"\x7d", 0, false, false, false⟩] = []) := by
  refine ⟨?_, ?_, ?_⟩
  · have hrefs : refScan 5 false 1 false false
        (body ++ [⟨"\x7d", 0, false, false, false⟩]) = (false, false) :=
      refScan_no_occurrence 5 body hb false false false
    have hsb : skipBraces 0 (body ++ [⟨"\x7d", 0, false, false, false⟩]) = [] := by
      have := skipBraces_no_braces body []
        (fun u hu => ⟨(hb u hu).2.1, (hb u hu).2.2⟩)
      simpa using this
    simp +decide [collectFns, afterClose, closeOk, paramLoop, paramPats, refScan,
      constTail, gnull, hrefs, hsb]
  · simp +decide [collectFns, skipBraces, afterClose, closeOk, paramLoop, paramPats,
      refScan, constTail, gnull]
  · simp +decide [collectFns, skipBraces, afterClose, closeOk, paramLoop, paramPats,
      refScan, constTail, gnull]

/-- Witness for C10 at a concrete input: a body consisting of one unrelated
    name token does not qualify f. -/
theorem analyse_functions_ref_params_witness :
    collectFns
        ([⟨";", 0, false, false, false⟩, ⟨"f", 0, false, false, true⟩,
          ⟨"(", 0, false, false, false⟩, ⟨"int", 0, true, false, true⟩,
          ⟨"&", 0, false, false, false⟩, ⟨"x", 5, false, false, true⟩,
          ⟨")", 0, false, false, false⟩, ⟨"\x7b", 0, false, false, false⟩] ++
         [⟨"g", 0, false, false, true⟩] ++
         [⟨"\x7d", 0, false, false, false⟩]) = [] :=
  (analyse_functions_ref_params [⟨"g", 0, false, false, true⟩] (by decide)).1

/-- Modelled from the spec: the outer driver (Check::runChecks and
    checkExecutionPaths live outside src/) runs the whole uninitialized-
    variable check over one translation unit: the token stream feeds
    analyseFunctions, the pointer trackers consume the token-derived operation
    stream of every function, and the scalar walker checks every candidate
    scalar (its variable, the IsScopeNoReturn verdict of its scope end, and
    its statement items). -/
structure Program : Type where
  tokens : List GTok
  ptrEvents : List UninitVar.Event
  scalars : List (CVar × Bool × List Item)

/-- One run of the whole check (CheckUninitVar::executionPaths followed by
    CheckUninitVar::check): when the job count is 1, analyseFunctions first
    inserts into the uvarFunctions registry (executionPaths lines 1030-1032);
    the pointer analysis consults the updated registry; the scalar walks do
    not. Returns the diagnostics in order and the registry left behind. -/
def fullCheck (p : Program) (jobs : Nat) (reg : List String) :
    List Diag × List String :=
  let reg2 := if jobs = 1 then analyseFunctions p.tokens reg else reg
  let pr := UninitVar.runEvents reg2 [] p.ptrEvents
  let sc := p.scalars.map
    (fun s => ((checkScopeForVariable s.1 s.2.1 none s.2.2).diags.map
      (fun q => Diag.mk ErrKind.uninitvar s.1.varId q)))
  (pr.2 ++ sc.join, reg2)

theorem mem_insertAll_left (g : String) (fs : List String) :
    ∀ reg : List String, g ∈ reg → g ∈ insertAll reg fs := by
  induction fs with
  | nil => intro reg h; exact h
  | cons f fs ih =>
    intro reg h
    have h2 : g ∈ insertName reg f := by
      simp only [insertName]
      by_cases hf : f ∈ reg
      · simpa [hf] using h
      · simp [hf, List.mem_append, h]
    exact ih (insertName reg f) h2

theorem mem_insertAll_self (g : String) (fs : List String) :
    ∀ reg : List String, g ∈ fs → g ∈ insertAll reg fs := by
  induction fs with
  | nil => intro reg h; cases h
  | cons f fs ih =>
    intro reg h
    rcases List.mem_cons.mp h with rfl | h
    · show g ∈ insertAll (insertName reg g) fs
      apply mem_insertAll_left
      simp only [insertName]
      by_cases hf : g ∈ reg
      · simpa [hf]
      · simp [hf]
    · exact ih (insertName reg f) h

theorem insertAll_of_subset (fs : List String) :
    ∀ reg : List String, (∀ f ∈ fs, f ∈ reg) → insertAll reg fs = reg := by
  induction fs with
  | nil => intro reg _; rfl
  | cons f fs ih =>
    intro reg h
    have hf : f ∈ reg := h f (List.mem_cons_self f fs)
    have e : insertName reg f = reg := by simp [insertName, hf]
    show insertAll (insertName reg f) fs = reg
    rw [e]
    exact ih reg (fun u hu => h u (List.mem_cons_of_mem f hu))

theorem insertAll_idem (reg : List String) (fs : List String) :
    insertAll (insertAll reg fs) fs = insertAll reg fs :=
  insertAll_of_subset fs (insertAll reg fs) (fun f hf => mem_insertAll_self f fs reg hf)

/-- C6: the whole uninitialized-variable check is deterministic over its
    input: running it a second time over the same unchanged program — with the
    registry the first run left behind, the only state that survives a run —
    yields the identical diagnostic sequence in the same order, and the same
    registry. -/
theorem check_deterministic_idempotent (p : Program) (jobs : Nat) (reg : List String) :
    (fullCheck p jobs (fullCheck p jobs reg).2).1 = (fullCheck p jobs reg).1 ∧
    (fullCheck p jobs (fullCheck p jobs reg).2).2 = (fullCheck p jobs reg).2 := by
  by_cases hj : jobs = 1
  · have hreg : (fullCheck p jobs reg).2 = analyseFunctions p.tokens reg := by
      simp [fullCheck, hj]
    have hreg2 : analyseFunctions p.tokens (analyseFunctions p.tokens reg)
        = analyseFunctions p.tokens reg := by
      simp only [analyseFunctions]
      exact insertAll_idem reg (collectFns p.tokens)
    constructor
    · simp [fullCheck, hj, hreg2]
    · simp [fullCheck, hj, hreg2]
  · constructor
    · simp [fullCheck, hj]
    · simp [fullCheck, hj]
